import Mathlib

/-!
Verification of the judge execution core against its specification.

Each section shallowly embeds one module of the source tree
(`judge/results.py`, `judge/queue.py`, `judge/runner.py`,
`judge/warm_executor.py`, `judge/problems.py`) as executable Lean
definitions, and proves the specified properties about them.
-/

namespace Judge

/-! ## Results store (`judge/results.py`)

`ResultsStore` keeps one SQLite row per job.  Every mutator is a
conditional `UPDATE` gated on the current `status`; we embed a row as a
record and each mutator as a pure function returning the new row and
whether the `UPDATE` touched the row (`cursor.rowcount > 0`).  SQLite
serializes row updates, so a history of concurrent mutator calls is a
sequence of mutator applications.
-/

namespace Results

inductive Status where
  | queued
  | running
  | done
  | err
deriving DecidableEq, Repr

/-- One row of the `jobs` table (the columns the mutators touch). -/
structure JobRow where
  status : Status
  startedAt : Option Nat
  finishedAt : Option Nat
  attempts : Nat
  resultJson : Option String
  errorMsg : Option String
  errorKind : Option String
deriving DecidableEq, Repr

/-- Embeds `mark_running`: `UPDATE ... SET status='running', started_at=now,
attempts=attempts+1 WHERE id=? AND status IN ('queued','running')`. -/
def markRunning (now : Nat) (r : JobRow) : JobRow × Bool :=
  if r.status = .queued ∨ r.status = .running then
    ({ r with status := .running, startedAt := some now, attempts := r.attempts + 1 }, true)
  else
    (r, false)

/-- Embeds `mark_done`: `UPDATE ... SET status='done', finished_at=now,
result_json=?, error=NULL, error_kind=NULL WHERE id=? AND status='running'`. -/
def markDone (now : Nat) (resultJson : String) (r : JobRow) : JobRow × Bool :=
  if r.status = .running then
    ({ r with
        status := .done, finishedAt := some now, resultJson := some resultJson,
        errorMsg := none, errorKind := none }, true)
  else
    (r, false)

/-- Embeds `mark_error`: `UPDATE ... SET status='error', finished_at=now,
result_json=?, error=?, error_kind=? WHERE id=? AND status IN ('queued','running')`. -/
def markError (now : Nat) (msg : String) (resultJson : Option String)
    (kind : Option String) (r : JobRow) : JobRow × Bool :=
  if r.status = .queued ∨ r.status = .running then
    ({ r with
        status := .err, finishedAt := some now, resultJson := resultJson,
        errorMsg := some msg, errorKind := kind }, true)
  else
    (r, false)

/-- A call to one of the three mutators, with its arguments. -/
inductive Mutator where
  | markRunning (now : Nat)
  | markDone (now : Nat) (resultJson : String)
  | markError (now : Nat) (msg : String) (resultJson : Option String) (kind : Option String)
deriving DecidableEq, Repr

def applyMutator : Mutator → JobRow → JobRow × Bool
  | .markRunning now, r => markRunning now r
  | .markDone now rj, r => markDone now rj r
  | .markError now msg rj k, r => markError now msg rj k r

/-- A stored status is terminal when it is `done` or `error`. -/
def Terminal (r : JobRow) : Prop := r.status = .done ∨ r.status = .err

instance (r : JobRow) : Decidable (Terminal r) := by
  unfold Terminal; infer_instance

/-- Number of steps of a mutator history that transition the row from a
non-terminal status into a terminal one (a persisted finalization). -/
def countFinalizing : List Mutator → JobRow → Nat
  | [], _ => 0
  | m :: ms, r =>
      let s := (applyMutator m r).1
      (if ¬ Terminal r ∧ Terminal s then 1 else 0) + countFinalizing ms s

theorem applyMutator_terminal (m : Mutator) (r : JobRow) (h : Terminal r) :
    applyMutator m r = (r, false) := by
  have h1 : ¬ (r.status = .queued ∨ r.status = .running) := by
    rcases h with h | h <;> rw [h] <;> simp
  have h2 : ¬ r.status = .running := by
    intro hr; exact h1 (Or.inr hr)
  cases m with
  | markRunning now => simp [applyMutator, markRunning, h1]
  | markDone now rj => simp [applyMutator, markDone, h2]
  | markError now msg rj k => simp [applyMutator, markError, h1]

theorem countFinalizing_terminal (ms : List Mutator) (r : JobRow) (h : Terminal r) :
    countFinalizing ms r = 0 := by
  induction ms generalizing r with
  | nil => rfl
  | cons m ms ih =>
      simp only [countFinalizing, applyMutator_terminal m r h]
      rw [if_neg (by simp [h]), ih r h]

theorem countFinalizing_le_one (ms : List Mutator) (r : JobRow) :
    countFinalizing ms r ≤ 1 := by
  induction ms generalizing r with
  | nil => exact Nat.zero_le 1
  | cons m ms ih =>
      by_cases hr : Terminal r
      · rw [countFinalizing_terminal (m :: ms) r hr]
        exact Nat.zero_le 1
      · simp only [countFinalizing]
        by_cases hs : Terminal (applyMutator m r).1
        · rw [if_pos ⟨hr, hs⟩, countFinalizing_terminal ms _ hs]
        · rw [if_neg (by simp [hs])]
          simpa using ih (applyMutator m r).1

end Results

end Judge

/-- C1: once a job row's stored status is `done` or `error`, every call of
`mark_running`, `mark_done`, or `mark_error` leaves the row unchanged and
returns `false`; hence along any sequence of mutator calls at most one
transition into `done` or `error` ever persists. -/
theorem Judge.Results.terminal_immutable_and_single_finalization :
    (∀ (m : Mutator) (r : JobRow), Terminal r → applyMutator m r = (r, false)) ∧
    (∀ (ms : List Mutator) (r : JobRow), countFinalizing ms r ≤ 1) :=
  ⟨fun m r h => applyMutator_terminal m r h, fun ms r => countFinalizing_le_one ms r⟩

/-- C1 witness: a concrete `done` row is untouched by `mark_error`, and a
concrete retry-heavy history finalizes at most once. -/
theorem Judge.Results.terminal_immutable_and_single_finalization_witness :
    (Judge.Results.applyMutator (.markError 7 ("late") none (some ("internal")))
        ⟨.done, some 1, some 2, 1, some ("{}"), none, none⟩ =
      (⟨.done, some 1, some 2, 1, some ("{}"), none, none⟩, false)) ∧
    Judge.Results.countFinalizing
        [.markRunning 1, .markRunning 2, .markDone 3 ("{}"), .markError 4 ("x") none none,
          .markRunning 5, .markDone 6 ("{}")]
        ⟨.queued, none, none, 0, none, none, none⟩ ≤ 1 :=
  ⟨Judge.Results.terminal_immutable_and_single_finalization.1 _ _ (Or.inl rfl),
    Judge.Results.terminal_immutable_and_single_finalization.2 _ _⟩

namespace Judge

/-! ## Harness comparison (`HARNESS_CODE` in `judge/runner.py`)

The harness compares the runner's value against the expected value.
Values flowing through `allclose` are Python ints/floats/bools (numeric
scalars, embedded as rationals — the claims quantify over finite values
only), strings, `None`, lists, tuples, and string-keyed dicts.  Python
dicts have unique keys; `KVList.nodupKeys` captures that invariant.
-/

namespace Harness

mutual
inductive Value where
  | num (q : ℚ)
  | str (s : String)
  | none
  | vlist (xs : ValueList)
  | vtuple (xs : ValueList)
  | vdict (kvs : KVList)

inductive ValueList where
  | nil
  | cons (v : Value) (tl : ValueList)

inductive KVList where
  | nil
  | cons (k : String) (v : Value) (tl : KVList)
end

def KVList.keys : KVList → List String
  | .nil => []
  | .cons k _ tl => k :: keys tl

/-- Python dicts cannot repeat a key. -/
def KVList.nodupKeys : KVList → Bool
  | .nil => true
  | .cons k _ tl => !((keys tl).contains k) && nodupKeys tl

/-- Embeds the dict subscription `b[k]`; total with a `None` default (the
default is never reached under the key-set guard in `allclose`). -/
def KVList.lookupD : KVList → String → Value
  | .nil, _ => .none
  | .cons k v tl, k' => if k' = k then v else lookupD tl k'

/-- Embeds `a.keys() == b.keys()` (Python compares `dict_keys` as sets). -/
def KVList.keysEq (a b : KVList) : Bool :=
  (keys a).all (fun k => (keys b).contains k) && (keys b).all (fun k => (keys a).contains k)

/-- Embeds `math.isclose(a, b, rel_tol=rtol, abs_tol=atol)` on finite
values: `|a-b| <= max(rel_tol * max(|a|, |b|), abs_tol)`. -/
def isclose (a b rtol atol : ℚ) : Bool :=
  |a - b| ≤ max (rtol * max |a| |b|) atol

/-- Length of a dict (Python `len`), used by dict `==`. -/
def pyEqDictLen : KVList → Nat
  | .nil => 0
  | .cons _ _ tl => pyEqDictLen tl + 1

mutual
/-- Embeds Python `==` on harness values (the final `return a == b`). -/
def pyEq (a b : Value) : Bool :=
  match a, b with
  | .num a, .num b => a = b
  | .str a, .str b => a = b
  | .none, .none => true
  | .vlist xs, .vlist ys => pyEqSeq xs ys
  | .vtuple xs, .vtuple ys => pyEqSeq xs ys
  | .vdict a, .vdict b => pyEqDictLen a = pyEqDictLen b && pyEqDict b a
  | _, _ => false
termination_by structural a

def pyEqSeq (xs ys : ValueList) : Bool :=
  match xs, ys with
  | .nil, .nil => true
  | .cons x xs, .cons y ys => pyEq x y && pyEqSeq xs ys
  | _, _ => false
termination_by structural xs

/-- Embeds `all(k in b and b[k] == v for k, v in a.items())`. -/
def pyEqDict (b a : KVList) : Bool :=
  match a with
  | .nil => true
  | .cons k v tl => ((KVList.keys b).contains k && pyEq v (KVList.lookupD b k)) && pyEqDict b tl
termination_by structural a
end

mutual
/-- Embeds `allclose(a, b, rtol, atol)` from `HARNESS_CODE`. -/
def allclose (rtol atol : ℚ) (a b : Value) : Bool :=
  match a, b with
  | .num a, .num b => isclose a b rtol atol
  | .vlist xs, .vlist ys => allcloseSeq rtol atol xs ys
  | .vlist xs, .vtuple ys => allcloseSeq rtol atol xs ys
  | .vtuple xs, .vlist ys => allcloseSeq rtol atol xs ys
  | .vtuple xs, .vtuple ys => allcloseSeq rtol atol xs ys
  | .vdict a, .vdict b => KVList.keysEq a b && allcloseVals rtol atol b a
  | a, b => pyEq a b
termination_by structural a

/-- Embeds `len(a) == len(b) and all(allclose(x, y, ...) for x, y in zip(a, b))`. -/
def allcloseSeq (rtol atol : ℚ) (xs ys : ValueList) : Bool :=
  match xs, ys with
  | .nil, .nil => true
  | .cons x xs, .cons y ys => allclose rtol atol x y && allcloseSeq rtol atol xs ys
  | _, _ => false
termination_by structural xs

/-- Embeds `all(allclose(a[k], b[k], ...) for k in a.keys())`: iterating the
pairs of `a` is iterating `a.keys()` with `a[k]` at hand, keys being unique. -/
def allcloseVals (rtol atol : ℚ) (b a : KVList) : Bool :=
  match a with
  | .nil => true
  | .cons k v tl => allclose rtol atol v (KVList.lookupD b k) && allcloseVals rtol atol b tl
termination_by structural a
end

end Harness

end Judge

namespace Judge

namespace Harness

def ValueList.toList : ValueList → List Value
  | .nil => []
  | .cons v tl => v :: toList tl

mutual
/-- Well-formedness of an embedded Python value: every dict in it has
pairwise-distinct keys (an invariant of Python dicts). -/
def WFv (a : Value) : Bool :=
  match a with
  | .num _ => true
  | .str _ => true
  | .none => true
  | .vlist xs => WFl xs
  | .vtuple xs => WFl xs
  | .vdict kvs => KVList.nodupKeys kvs && WFkv kvs
termination_by structural a

def WFl (xs : ValueList) : Bool :=
  match xs with
  | .nil => true
  | .cons v tl => WFv v && WFl tl
termination_by structural xs

def WFkv (kvs : KVList) : Bool :=
  match kvs with
  | .nil => true
  | .cons _ v tl => WFv v && WFkv tl
termination_by structural kvs
end

theorem keysEq_comm (a b : KVList) : KVList.keysEq a b = KVList.keysEq b a :=
  Bool.and_comm _ _

theorem contains_mem {l : List String} {k : String} : l.contains k = true ↔ k ∈ l :=
  List.elem_iff

theorem keysEq_true_iff (a b : KVList) :
    KVList.keysEq a b = true ↔ ∀ k, k ∈ KVList.keys a ↔ k ∈ KVList.keys b := by
  simp only [KVList.keysEq, Bool.and_eq_true, List.all_eq_true, contains_mem]
  constructor
  · rintro ⟨h1, h2⟩ k
    exact ⟨fun hk => h1 k hk, fun hk => h2 k hk⟩
  · intro h
    exact ⟨fun k hk => (h k).mp hk, fun k hk => (h k).mpr hk⟩

theorem all_congr_mem {α : Type} {l : List α} {p q : α → Bool}
    (h : ∀ x ∈ l, p x = q x) : l.all p = l.all q := by
  induction l with
  | nil => rfl
  | cons x tl ih =>
      simp only [List.all_cons]
      rw [h x (List.mem_cons_self x tl), ih (fun y hy => h y (List.mem_cons_of_mem x hy))]

theorem all_perm_mem {α : Type} {l₁ l₂ : List α} {p : α → Bool}
    (h : ∀ x, x ∈ l₁ ↔ x ∈ l₂) : l₁.all p = l₂.all p := by
  rw [Bool.eq_iff_iff]
  simp only [List.all_eq_true]
  constructor
  · intro hp x hx
    exact hp x ((h x).mpr hx)
  · intro hp x hx
    exact hp x ((h x).mp hx)

theorem WFv_lookupD (kvs : KVList) (k : String) (h : WFkv kvs = true) :
    WFv (KVList.lookupD kvs k) = true := by
  cases kvs with
  | nil => rfl
  | cons k' v tl =>
      have h' : (WFv v && WFkv tl) = true := h
      rw [Bool.and_eq_true] at h'
      obtain ⟨hv, htl⟩ := h'
      rw [KVList.lookupD]
      by_cases hk : k = k'
      · rw [if_pos hk]; exact hv
      · rw [if_neg hk]; exact WFv_lookupD tl k htl
termination_by structural kvs

theorem lookupD_cons_self (k : String) (v : Value) (tl : KVList) :
    KVList.lookupD (.cons k v tl) k = v := by
  rw [KVList.lookupD, if_pos rfl]

theorem lookupD_cons_ne (k k' : String) (v : Value) (tl : KVList) (h : ¬ k' = k) :
    KVList.lookupD (.cons k v tl) k' = KVList.lookupD tl k' := by
  rw [KVList.lookupD, if_neg h]

/-- Under unique keys, iterating the stored pairs of `a` coincides with the
source's `all(allclose(a[k], b[k], ...) for k in a.keys())`. -/
theorem allcloseVals_eq_keysForm (rtol atol : ℚ) (b kvs : KVList)
    (h : KVList.nodupKeys kvs = true) :
    allcloseVals rtol atol b kvs =
      (KVList.keys kvs).all
        (fun k => allclose rtol atol (KVList.lookupD kvs k) (KVList.lookupD b k)) := by
  cases kvs with
  | nil => rfl
  | cons k v tl =>
      have h' : (!((KVList.keys tl).contains k) && KVList.nodupKeys tl) = true := h
      rw [Bool.and_eq_true] at h'
      obtain ⟨hk, htl⟩ := h'
      have hnotmem : k ∉ KVList.keys tl := by
        intro hmem
        rw [Bool.not_eq_true', ← Bool.not_eq_true] at hk
        exact hk (contains_mem.mpr hmem)
      show (allclose rtol atol v (KVList.lookupD b k) && allcloseVals rtol atol b tl) =
        List.all (k :: KVList.keys tl) _
      rw [List.all_cons, lookupD_cons_self, allcloseVals_eq_keysForm rtol atol b tl htl]
      congr 1
      apply all_congr_mem
      intro k' hk'
      have hne : ¬ k' = k := fun he => hnotmem (he ▸ hk')
      rw [lookupD_cons_ne k k' v tl hne]
termination_by structural kvs

end Harness

end Judge

namespace Judge

namespace Harness

theorem isclose_symm (a b rtol atol : ℚ) : isclose a b rtol atol = isclose b a rtol atol := by
  unfold isclose
  rw [abs_sub_comm, max_comm |a| |b|]

mutual
theorem allcloseSymmAux (rtol atol : ℚ) (a b : Value)
    (ha : WFv a = true) (hb : WFv b = true) :
    allclose rtol atol a b = allclose rtol atol b a := by
  cases a <;> cases b <;> try rfl
  case num.num x y => exact isclose_symm x y rtol atol
  case str.str s t =>
    show (decide (s = t) : Bool) = decide (t = s)
    exact decide_eq_decide.mpr ⟨Eq.symm, Eq.symm⟩
  case vlist.vlist xs ys => exact allcloseSeqSymmAux rtol atol xs ys ha hb
  case vlist.vtuple xs ys => exact allcloseSeqSymmAux rtol atol xs ys ha hb
  case vtuple.vlist xs ys => exact allcloseSeqSymmAux rtol atol xs ys ha hb
  case vtuple.vtuple xs ys => exact allcloseSeqSymmAux rtol atol xs ys ha hb
  case vdict.vdict kva kvb =>
    have ha' : (KVList.nodupKeys kva && WFkv kva) = true := ha
    have hb' : (KVList.nodupKeys kvb && WFkv kvb) = true := hb
    rw [Bool.and_eq_true] at ha' hb'
    obtain ⟨hna, hwa⟩ := ha'
    obtain ⟨hnb, hwb⟩ := hb'
    show (KVList.keysEq kva kvb && allcloseVals rtol atol kvb kva) =
      (KVList.keysEq kvb kva && allcloseVals rtol atol kva kvb)
    rw [keysEq_comm kvb kva]
    by_cases hk : KVList.keysEq kva kvb = true
    · rw [hk]
      simp only [Bool.true_and]
      rw [allcloseVals_eq_keysForm rtol atol kvb kva hna,
        allcloseVals_eq_keysForm rtol atol kva kvb hnb]
      rw [all_congr_mem (fun k _ => allcloseLookupSymmAux rtol atol kva hwa k
        (KVList.lookupD kvb k) (WFv_lookupD kvb k hwb))]
      exact all_perm_mem ((keysEq_true_iff kva kvb).mp hk)
    · rw [Bool.not_eq_true] at hk
      rw [hk]
      rfl
termination_by structural a

theorem allcloseSeqSymmAux (rtol atol : ℚ) (xs ys : ValueList)
    (hx : WFl xs = true) (hy : WFl ys = true) :
    allcloseSeq rtol atol xs ys = allcloseSeq rtol atol ys xs := by
  cases xs <;> cases ys <;> try rfl
  case cons.cons x xs y ys =>
    have hx' : (WFv x && WFl xs) = true := hx
    have hy' : (WFv y && WFl ys) = true := hy
    rw [Bool.and_eq_true] at hx' hy'
    obtain ⟨hx1, hx2⟩ := hx'
    obtain ⟨hy1, hy2⟩ := hy'
    show (allclose rtol atol x y && allcloseSeq rtol atol xs ys) =
      (allclose rtol atol y x && allcloseSeq rtol atol ys xs)
    rw [allcloseSymmAux rtol atol x y hx1 hy1, allcloseSeqSymmAux rtol atol xs ys hx2 hy2]
termination_by structural xs

theorem allcloseLookupSymmAux (rtol atol : ℚ) (kvs : KVList) (hw : WFkv kvs = true)
    (k : String) (b : Value) (hb : WFv b = true) :
    allclose rtol atol (KVList.lookupD kvs k) b =
      allclose rtol atol b (KVList.lookupD kvs k) := by
  cases kvs with
  | nil =>
      show allclose rtol atol .none b = allclose rtol atol b .none
      cases b <;> rfl
  | cons k' v tl =>
      have h' : (WFv v && WFkv tl) = true := hw
      rw [Bool.and_eq_true] at h'
      obtain ⟨hv, htl⟩ := h'
      by_cases hk : k = k'
      · rw [show KVList.lookupD (.cons k' v tl) k = v from by rw [KVList.lookupD, if_pos hk]]
        exact allcloseSymmAux rtol atol v b hv hb
      · rw [lookupD_cons_ne k' k v tl hk]
        exact allcloseLookupSymmAux rtol atol tl htl k b hb
termination_by structural kvs
end

end Harness

end Judge

namespace Judge

namespace Harness

/-- Sequence comparison is a length guard plus an elementwise pass over the
zipped elements, mirroring `len(a) == len(b)` and `zip(a, b)`. -/
theorem allcloseSeq_eq_lengthZip (rtol atol : ℚ) (xs ys : ValueList) :
    allcloseSeq rtol atol xs ys =
      (decide (xs.toList.length = ys.toList.length) &&
        (xs.toList.zip ys.toList).all (fun p => allclose rtol atol p.1 p.2)) := by
  cases xs with
  | nil => cases ys with
    | nil => rfl
    | cons y ys => rfl
  | cons x xs => cases ys with
    | nil => rfl
    | cons y ys =>
        show (allclose rtol atol x y && allcloseSeq rtol atol xs ys) = _
        rw [allcloseSeq_eq_lengthZip rtol atol xs ys]
        show _ = (decide (xs.toList.length + 1 = ys.toList.length + 1) &&
          ((x, y) :: xs.toList.zip ys.toList).all (fun p => allclose rtol atol p.1 p.2))
        rw [List.all_cons]
        have hlen : decide (xs.toList.length + 1 = ys.toList.length + 1) =
            decide (xs.toList.length = ys.toList.length) :=
          decide_eq_decide.mpr Nat.succ_inj
        rw [hlen]
        cases allclose rtol atol x y <;>
          cases decide (xs.toList.length = ys.toList.length) <;> simp
termination_by structural xs

end Harness

end Judge

/-- C8: the harness comparison `allclose` is symmetric: for all finite values
`a` and `b` (numeric scalars, nested lists/tuples, and mappings with unique
keys) and all tolerances, `allclose(a, b, rtol, atol) = allclose(b, a, rtol, atol)`. -/
theorem Judge.Harness.allclose_symmetric (rtol atol : ℚ) (a b : Value)
    (ha : WFv a = true) (hb : WFv b = true) :
    allclose rtol atol a b = allclose rtol atol b a :=
  allcloseSymmAux rtol atol a b ha hb

/-- C8 witness: symmetry at a concrete pair of nested dict/list values. -/
theorem Judge.Harness.allclose_symmetric_witness :
    WFv (.vdict (.cons ("k") (.vlist (.cons (.num 1) .nil)) .nil)) = true ∧
    WFv (.vdict (.cons ("k") (.num (1/2)) .nil)) = true ∧
    allclose 1 0 (.vdict (.cons ("k") (.vlist (.cons (.num 1) .nil)) .nil))
        (.vdict (.cons ("k") (.num (1/2)) .nil)) =
      allclose 1 0 (.vdict (.cons ("k") (.num (1/2)) .nil))
        (.vdict (.cons ("k") (.vlist (.cons (.num 1) .nil)) .nil)) :=
  ⟨rfl, rfl, Judge.Harness.allclose_symmetric 1 0 _ _ rfl rfl⟩

/-- C2 counterexample: at actual `a = 2`, expected `b = 1`, `rtol = 3/5`,
`atol = 0`, the harness's `allclose` (which calls `math.isclose`) accepts,
while the claimed acceptance formula `|a − b| ≤ atol + rtol·|b|` rejects;
so the scalar-leaf acceptance is not that formula. -/
theorem Judge.Harness.allclose_leaf_formula_counterexample :
    allclose (3/5) 0 (.num 2) (.num 1) = true ∧
    ¬ (|(2 : ℚ) - 1| ≤ 0 + (3/5) * |(1 : ℚ)|) := by
  constructor
  · show isclose 2 1 (3/5) 0 = true
    unfold isclose
    rw [decide_eq_true_eq]
    norm_num
  · norm_num

/-- C2 amended: `allclose` under an `allclose{rtol,atol}` policy recurses
into lists/tuples elementwise after a length guard, recurses into mappings
only when the two mappings have identical key sets (returning false
otherwise), and at numeric scalar leaves accepts actual `a` against
expected `b` exactly when `|a − b| ≤ max(rtol·max(|a|,|b|), atol)`
(Python's `math.isclose`), not `|a − b| ≤ atol + rtol·|b|`. -/
theorem Judge.Harness.allclose_recursion_and_isclose_leaf (rtol atol : ℚ) :
    (∀ a b : ℚ, allclose rtol atol (.num a) (.num b) =
        decide (|a - b| ≤ max (rtol * max |a| |b|) atol)) ∧
    (∀ xs ys : ValueList,
        allclose rtol atol (.vlist xs) (.vlist ys) =
          (decide (xs.toList.length = ys.toList.length) &&
            (xs.toList.zip ys.toList).all (fun p => allclose rtol atol p.1 p.2))) ∧
    (∀ a b : KVList, KVList.keysEq a b = false →
        allclose rtol atol (.vdict a) (.vdict b) = false) ∧
    (∀ a b : KVList, KVList.keysEq a b = true → KVList.nodupKeys a = true →
        allclose rtol atol (.vdict a) (.vdict b) =
          (KVList.keys a).all
            (fun k => allclose rtol atol (KVList.lookupD a k) (KVList.lookupD b k))) ∧
    (∀ a b : KVList,
        KVList.keysEq a b = true ↔ ∀ k, k ∈ KVList.keys a ↔ k ∈ KVList.keys b) := by
  refine ⟨fun a b => rfl, fun xs ys => allcloseSeq_eq_lengthZip rtol atol xs ys, ?_, ?_, ?_⟩
  · intro a b h
    show (KVList.keysEq a b && allcloseVals rtol atol b a) = false
    rw [h]
    rfl
  · intro a b h hnd
    show (KVList.keysEq a b && allcloseVals rtol atol b a) = _
    rw [h, Bool.true_and]
    exact allcloseVals_eq_keysForm rtol atol b a hnd
  · exact fun a b => keysEq_true_iff a b

/-- C2 amended witness: the characterization evaluated at concrete scalars,
mismatched-key dicts, and matching-key dicts. -/
theorem Judge.Harness.allclose_recursion_and_isclose_leaf_witness :
    (allclose 1 0 (.num 2) (.num 1) =
      decide (|(2 : ℚ) - 1| ≤ max (1 * max |(2 : ℚ)| |(1 : ℚ)|) 0)) ∧
    (allclose 1 0 (.vdict (.cons ("a") (.num 1) .nil)) (.vdict (.cons ("b") (.num 1) .nil))
      = false) ∧
    (allclose 1 0 (.vdict (.cons ("a") (.num 1) .nil)) (.vdict (.cons ("a") (.num 2) .nil)) =
      (KVList.keys (.cons ("a") (.num 1) .nil)).all
        (fun k => allclose 1 0 (KVList.lookupD (.cons ("a") (.num 1) .nil) k)
          (KVList.lookupD (.cons ("a") (.num 2) .nil) k))) :=
  ⟨(Judge.Harness.allclose_recursion_and_isclose_leaf 1 0).1 2 1,
    (Judge.Harness.allclose_recursion_and_isclose_leaf 1 0).2.2.1 _ _ rfl,
    (Judge.Harness.allclose_recursion_and_isclose_leaf 1 0).2.2.2.1 _ _ rfl rfl⟩

namespace Judge

/-! ## Runner result shaping (`judge/runner.py`)

Embeds `_truncate`, `_sanitize_item`, `_summarize_results`,
`_build_error_summary`, and the tail of `run_problem` (the classification
after `_run_in_isolate` returns).  Python strings in the per-case records
are embedded as `List Char` so that character budgets are lengths; the
harness JSON array is embedded as a list of records with the `dict.get`
defaults already applied.
-/

namespace Runner

/-- One record of the harness output array (`tests_raw` element), with the
`item.get(..., default)` defaults of the consumers applied. -/
structure HCase where
  id : String
  status : String
  hidden : Bool
  input : List Char
  stdout : List Char
  output : List Char
  expected : List Char
  stderr : List Char
deriving DecidableEq, Repr

/-- Embeds the Python prefix slice `value[:k]`, whose bound may be negative
(`value[:k]` keeps `max(len(value)+k, 0)` characters for `k < 0`). -/
def pySlicePrefix (s : List Char) (k : Int) : List Char :=
  if k < 0 then s.take (s.length - (-k).toNat) else s.take k.toNat

/-- Embeds `_truncate`: return `value` when `len(value) <= max_chars`, else
`value[: max_chars - 3] + "..."`. -/
def truncate (maxChars : Int) (value : List Char) : List Char :=
  if (value.length : Int) ≤ maxChars then value
  else pySlicePrefix value (maxChars - 3) ++ [('.' : Char), '.', '.']

/-- Embeds `_sanitize_item`: rebuild the record, truncating `stdout`,
`output`, `expected`, `stderr` — and passing `id`, `status`, `hidden`,
`input` through. -/
def sanitizeItem (item : HCase) (maxChars : Int) : HCase :=
  { id := item.id
    status := item.status
    hidden := item.hidden
    input := item.input
    stdout := truncate maxChars item.stdout
    output := truncate maxChars item.output
    expected := truncate maxChars item.expected
    stderr := truncate maxChars item.stderr }

/-- The `summary` dict built by `_summarize_results` /
`_build_error_summary` (Python ints). -/
structure Summary where
  total : Int
  passed : Int
  failed : Int
  publicTotal : Int
  publicPassed : Int
  hiddenTotal : Int
  hiddenPassed : Int
deriving DecidableEq, Repr

/-- Loop state of `_summarize_results`. -/
structure SumAcc where
  total : Nat
  passed : Nat
  hiddenTotal : Nat
  hiddenPassed : Nat
  firstFailed : Option HCase
deriving DecidableEq, Repr

/-- Embeds the `for item in results` loop of `_summarize_results`. -/
def summarizeGo (acc : SumAcc) : List HCase → SumAcc
  | [] => acc
  | item :: rest =>
      let acc :=
        { acc with
            total := acc.total + 1
            hiddenTotal := if item.hidden then acc.hiddenTotal + 1 else acc.hiddenTotal }
      let acc :=
        if item.status = "Accepted" then
          { acc with
              passed := acc.passed + 1
              hiddenPassed := if item.hidden then acc.hiddenPassed + 1 else acc.hiddenPassed }
        else if acc.firstFailed.isNone then
          { acc with firstFailed := some item }
        else
          acc
      summarizeGo acc rest

/-- Embeds `_summarize_results`. -/
def summarizeResults (results : List HCase) : Summary × Option HCase :=
  let acc := summarizeGo ⟨0, 0, 0, 0, none⟩ results
  ({ total := acc.total
     passed := acc.passed
     failed := (acc.total : Int) - acc.passed
     publicTotal := (acc.total : Int) - acc.hiddenTotal
     publicPassed := (acc.passed : Int) - acc.hiddenPassed
     hiddenTotal := acc.hiddenTotal
     hiddenPassed := acc.hiddenPassed }, acc.firstFailed)

/-- Embeds `_build_error_summary` (`public_tests`/`hidden_tests` lengths
passed in as counts). -/
def buildErrorSummary (publicCount hiddenCount : Nat) (includeHidden : Bool)
    (totalCases : Nat) : Summary :=
  { total := totalCases
    passed := 0
    failed := totalCases
    publicTotal := if !includeHidden then (totalCases : Int) else publicCount
    publicPassed := 0
    hiddenTotal := if !includeHidden then 0 else (hiddenCount : Int)
    hiddenPassed := 0 }

/-- A run result dict `{status, summary, tests, error, error_kind?}`. -/
structure RunResult where
  status : String
  summary : Summary
  tests : List HCase
  error : Option String
  errorKind : Option String
deriving DecidableEq, Repr

/-- Embeds the success tail of `run_problem`: summary, overall status from
the first failure, and `tests` shaped by `detail_mode`. -/
def buildSuccessResult (testsRaw : List HCase) (maxChars : Int)
    (detailMode : String) : RunResult :=
  let sf := summarizeResults testsRaw
  let status :=
    match sf.2 with
    | some item => if sf.1.failed > 0 then item.status else "Accepted"
    | none => "Accepted"
  let tests :=
    if detailMode = "first_failure" then
      match sf.2 with
      | some item => [sanitizeItem item maxChars]
      | none => []
    else
      testsRaw.map (fun item => sanitizeItem item maxChars)
  { status := status, summary := sf.1, tests := tests, error := none, errorKind := none }

end Runner

end Judge

namespace Judge

namespace Runner

def optOr {α : Type} : Option α → Option α → Option α
  | some x, _ => some x
  | none, o => o

/-- One iteration of the `_summarize_results` loop, written as a single
record update. -/
theorem summarizeGo_cons (acc : SumAcc) (item : HCase) (rest : List HCase) :
    summarizeGo acc (item :: rest) = summarizeGo
      { total := acc.total + 1
        passed := if item.status = "Accepted" then acc.passed + 1 else acc.passed
        hiddenTotal := if item.hidden then acc.hiddenTotal + 1 else acc.hiddenTotal
        hiddenPassed :=
          if item.status = "Accepted" ∧ item.hidden then acc.hiddenPassed + 1
          else acc.hiddenPassed
        firstFailed :=
          if ¬ item.status = "Accepted" ∧ acc.firstFailed = none then some item
          else acc.firstFailed } rest := by
  by_cases hacc : item.status = "Accepted" <;> by_cases hh : item.hidden = true <;>
    cases hff : acc.firstFailed <;>
    simp [summarizeGo, hacc, hh, hff]

theorem summarizeGo_bounds (rs : List HCase) (acc : SumAcc)
    (h1 : acc.passed ≤ acc.total) (h2 : acc.hiddenPassed ≤ acc.hiddenTotal)
    (h3 : acc.hiddenTotal ≤ acc.total) (h4 : acc.hiddenPassed ≤ acc.passed) :
    (summarizeGo acc rs).passed ≤ (summarizeGo acc rs).total ∧
    (summarizeGo acc rs).hiddenPassed ≤ (summarizeGo acc rs).hiddenTotal ∧
    (summarizeGo acc rs).hiddenTotal ≤ (summarizeGo acc rs).total ∧
    (summarizeGo acc rs).hiddenPassed ≤ (summarizeGo acc rs).passed := by
  induction rs generalizing acc with
  | nil => exact ⟨h1, h2, h3, h4⟩
  | cons item rest ih =>
      rw [summarizeGo_cons]
      refine ih _ ?_ ?_ ?_ ?_ <;> dsimp only <;>
        by_cases hacc : item.status = "Accepted" <;> by_cases hh : item.hidden = true <;>
        simp [hacc, hh] <;> omega

theorem summarizeGo_firstFailed (rs : List HCase) (acc : SumAcc) :
    (summarizeGo acc rs).firstFailed =
      optOr acc.firstFailed (rs.find? (fun c => !(decide (c.status = "Accepted")))) := by
  induction rs generalizing acc with
  | nil =>
      show acc.firstFailed = optOr acc.firstFailed _
      cases acc.firstFailed <;> rfl
  | cons item rest ih =>
      rw [summarizeGo_cons, ih]
      by_cases hacc : item.status = "Accepted"
      · rw [List.find?_cons_of_neg _ (by simp [hacc])]
        dsimp only
        rw [if_neg (by simp [hacc])]
      · rw [List.find?_cons_of_pos _ (by simp [hacc])]
        dsimp only
        cases hff : acc.firstFailed with
        | none => rw [if_pos ⟨hacc, rfl⟩]; rfl
        | some x => rw [if_neg (by simp)]; rfl

end Runner

end Judge

/-- C10: for every list of harness case records, the summary computed by
`_summarize_results` satisfies `failed = total − passed`,
`public_total = total − hidden_total`, `public_passed = passed − hidden_passed`,
`0 ≤ passed ≤ total` and `0 ≤ hidden_passed ≤ hidden_total ≤ total`, and the
accompanying first-failure record is exactly the earliest record whose
status is not `Accepted` (absent when every record is `Accepted`). -/
theorem Judge.Runner.summarize_results_invariants (results : List HCase) :
    ((summarizeResults results).1.failed =
      (summarizeResults results).1.total - (summarizeResults results).1.passed) ∧
    ((summarizeResults results).1.publicTotal =
      (summarizeResults results).1.total - (summarizeResults results).1.hiddenTotal) ∧
    ((summarizeResults results).1.publicPassed =
      (summarizeResults results).1.passed - (summarizeResults results).1.hiddenPassed) ∧
    0 ≤ (summarizeResults results).1.passed ∧
    (summarizeResults results).1.passed ≤ (summarizeResults results).1.total ∧
    0 ≤ (summarizeResults results).1.hiddenPassed ∧
    (summarizeResults results).1.hiddenPassed ≤ (summarizeResults results).1.hiddenTotal ∧
    (summarizeResults results).1.hiddenTotal ≤ (summarizeResults results).1.total ∧
    (summarizeResults results).2 =
      results.find? (fun c => !(decide (c.status = "Accepted"))) := by
  obtain ⟨b1, b2, b3, b4⟩ :=
    summarizeGo_bounds results ⟨0, 0, 0, 0, none⟩ (Nat.le_refl 0) (Nat.le_refl 0)
      (Nat.le_refl 0) (Nat.le_refl 0)
  have hff := summarizeGo_firstFailed results ⟨0, 0, 0, 0, none⟩
  dsimp only [summarizeResults]
  refine ⟨rfl, rfl, rfl, ?_, ?_, ?_, ?_, ?_, ?_⟩
  · exact Int.ofNat_nonneg _
  · exact_mod_cast b1
  · exact Int.ofNat_nonneg _
  · exact_mod_cast b2
  · exact_mod_cast b3
  · exact hff

namespace Judge

namespace Runner

theorem summarizeResults_snd (results : List HCase) :
    (summarizeResults results).2 =
      results.find? (fun c => !(decide (c.status = "Accepted"))) := by
  dsimp only [summarizeResults]
  rw [summarizeGo_firstFailed]
  rfl

/-- With a budget of at least 3 characters, `_truncate` returns at most the
budget: the kept prefix has `max_chars - 3` characters and the ellipsis 3. -/
theorem truncate_length_le (maxChars : Int) (h : 3 ≤ maxChars) (s : List Char) :
    ((truncate maxChars s).length : Int) ≤ maxChars := by
  unfold truncate
  split_ifs with hle
  · exact hle
  · unfold pySlicePrefix
    rw [if_neg (by omega)]
    rw [List.length_append, List.length_take]
    simp only [List.length_cons, List.length_nil]
    rw [Nat.min_def]
    split_ifs <;> push_cast <;> omega

/-- Embeds `WorkerExecutionService._resolve_problem`'s kind dispatch:
`run → (include_hidden=False, detail_mode="all")`,
`submit → (include_hidden=True, detail_mode="first_failure")`,
anything else raises. -/
def resolveProblemMode (kind : String) : Except String (Bool × String) :=
  if kind = "run" then .ok (false, "all")
  else if kind = "submit" then .ok (true, "first_failure")
  else .error ("Invalid job kind: " ++ kind)

end Runner

end Judge

/-- C6 counterexample: the claim fails at concrete inputs: (1) the `input`
field is not truncated by `_sanitize_item` — with budget 3 a 4-character
`input` survives whole; (2) with budget 2 (< 3), `_truncate` on a
6-character string returns `value[:-1] + "..."`, which has 8 > 2
characters. -/
theorem Judge.Runner.sanitize_budget_counterexample :
    ¬ (((sanitizeItem ⟨("t"), ("Accepted"), false, [('a' : Char), 'b', 'c', 'd'],
          [], [], [], []⟩ 3).input.length : Int) ≤ 3) ∧
    ¬ (((sanitizeItem ⟨("t"), ("Accepted"), false, [],
          [('a' : Char), 'b', 'c', 'd', 'e', 'f'], [], [], []⟩ 2).stdout.length : Int) ≤ 2) := by
  constructor
  · decide
  · decide

/-- C6 amended: in every persisted run result with a budget of at least 3,
the per-case fields `stdout`, `output`, `expected`, `stderr` are truncated
to at most `max_output_chars`, while `id`, `status`, `hidden` and `input`
are passed through unchanged (`input` is not truncated); for kind `submit`
(`detail_mode="first_failure"`) the `tests` list contains at most one
record — the first case whose status is not `Accepted` — and is empty when
all cases pass, while for kind `run` (`detail_mode="all"`) `tests` has one
sanitized record per harness case in the harness's order. -/
theorem Judge.Runner.sanitize_and_detail_mode (maxChars : Int) (h3 : 3 ≤ maxChars) :
    (∀ item : HCase,
      ((sanitizeItem item maxChars).stdout.length : Int) ≤ maxChars ∧
      ((sanitizeItem item maxChars).output.length : Int) ≤ maxChars ∧
      ((sanitizeItem item maxChars).expected.length : Int) ≤ maxChars ∧
      ((sanitizeItem item maxChars).stderr.length : Int) ≤ maxChars ∧
      (sanitizeItem item maxChars).input = item.input ∧
      (sanitizeItem item maxChars).id = item.id ∧
      (sanitizeItem item maxChars).status = item.status ∧
      (sanitizeItem item maxChars).hidden = item.hidden) ∧
    (Runner.resolveProblemMode ("submit") = .ok (true, "first_failure") ∧
      Runner.resolveProblemMode ("run") = .ok (false, "all")) ∧
    (∀ testsRaw : List HCase,
      ((buildSuccessResult testsRaw maxChars ("first_failure")).tests =
        match testsRaw.find? (fun c => !(decide (c.status = "Accepted"))) with
        | some item => [sanitizeItem item maxChars]
        | none => []) ∧
      ((∀ c ∈ testsRaw, c.status = "Accepted") →
        (buildSuccessResult testsRaw maxChars ("first_failure")).tests = []) ∧
      (buildSuccessResult testsRaw maxChars ("all")).tests =
        testsRaw.map (fun item => sanitizeItem item maxChars)) := by
  refine ⟨?_, ⟨rfl, rfl⟩, ?_⟩
  · intro item
    exact ⟨truncate_length_le maxChars h3 _, truncate_length_le maxChars h3 _,
      truncate_length_le maxChars h3 _, truncate_length_le maxChars h3 _,
      rfl, rfl, rfl, rfl⟩
  · intro testsRaw
    have hts : (buildSuccessResult testsRaw maxChars ("first_failure")).tests =
        match testsRaw.find? (fun c => !(decide (c.status = "Accepted"))) with
        | some item => [sanitizeItem item maxChars]
        | none => [] := by
      dsimp only [buildSuccessResult]
      rw [if_pos rfl, summarizeResults_snd]
    refine ⟨hts, ?_, ?_⟩
    · intro hall
      rw [hts]
      rw [List.find?_eq_none.mpr (fun c hc => by simp [hall c hc])]
    · dsimp only [buildSuccessResult]
      rw [if_neg (by decide)]

/-- C6 amended witness: the amended statement evaluated at budget 5 with a
concrete failing case list. -/
theorem Judge.Runner.sanitize_and_detail_mode_witness :
    ((sanitizeItem ⟨("t"), ("Accepted"), false, [('a' : Char), 'b', 'c', 'd'],
        [('x' : Char)], [], [], []⟩ 5).stdout.length : Int) ≤ 5 ∧
    (buildSuccessResult
        [⟨("t1"), ("Accepted"), false, [], [], [], [], []⟩,
          ⟨("t2"), ("Wrong Answer"), false, [], [], [], [], []⟩] 5 ("first_failure")).tests =
      (match
        [(⟨("t1"), ("Accepted"), false, [], [], [], [], []⟩ : HCase),
          ⟨("t2"), ("Wrong Answer"), false, [], [], [], [], []⟩].find?
            (fun c => !(decide (c.status = "Accepted"))) with
        | some item => [sanitizeItem item 5]
        | none => []) :=
  ⟨((Judge.Runner.sanitize_and_detail_mode 5 (by norm_num)).1 _).1,
    (((Judge.Runner.sanitize_and_detail_mode 5 (by norm_num)).2.2 _).1)⟩

namespace Judge

namespace Runner

/-- Embeds the parsed isolate meta file (`_parse_isolate_meta` output, a
dict of `key: value` lines; a missing meta file yields the empty dict).
Meta keys are unique, so first-match lookup is dict lookup. -/
def metaGet (meta : List (String × String)) (k : String) : Option String :=
  (meta.find? (fun p => decide (p.1 = k))).map (fun p => p.2)

/-- Embeds `_isolate_failed_with_tle`: `meta.get("status") == "TO"`. -/
def isolateFailedWithTle (meta : List (String × String)) : Bool :=
  metaGet meta ("status") == some ("TO")

/-- Embeds `_isolate_failed_with_mle`:
`meta.get("cg-oom-killed") not in {None, "", "0"}`. -/
def isolateFailedWithMle (meta : List (String × String)) : Bool :=
  match metaGet meta ("cg-oom-killed") with
  | none => false
  | some v => !(v = ("" : String)) && !(v = ("0" : String))

/-- Embeds `_isolate_failed_with_internal_error`:
`status == "XX" or status is None`. -/
def isolateFailedWithInternal (meta : List (String × String)) : Bool :=
  match metaGet meta ("status") with
  | none => true
  | some s => s = ("XX" : String)

/-- Outcome of `json.loads(stdout)` on the sandbox stdout. -/
inductive StdoutParse where
  | parsed (cases : List HCase)
  | unparseable
deriving DecidableEq

/-- Embeds the classification tail of `run_problem` (`judge/runner.py`),
after `_run_in_isolate` has returned `(returncode, stdout, stderr, meta)`. -/
def runProblemClassify (timeLimitS memoryMb : Int) (publicCount hiddenCount : Nat)
    (includeHidden : Bool) (totalCases : Nat) (maxChars : Int) (detailMode : String)
    (returncode : Int) (stdoutRaw stderrRaw : String) (sp : StdoutParse)
    (meta : List (String × String)) : RunResult :=
  let errSummary := buildErrorSummary publicCount hiddenCount includeHidden totalCases
  if returncode ≠ 0 then
    if isolateFailedWithTle meta then
      { status := "Time Limit Exceeded", summary := errSummary, tests := [],
        error := some ("Time Limit Exceeded (" ++ toString timeLimitS ++ "s)"),
        errorKind := some ("user") }
    else if isolateFailedWithMle meta then
      { status := "Memory Limit Exceeded", summary := errSummary, tests := [],
        error := some ("Memory Limit Exceeded (" ++ toString memoryMb ++ "MB)"),
        errorKind := some ("user") }
    else
      { status := "Runtime Error", summary := errSummary, tests := [],
        error := some (if stderrRaw.trim = "" then "Runner failed" else stderrRaw.trim),
        errorKind := some (if isolateFailedWithInternal meta then "internal" else "user") }
  else
    match sp with
    | .unparseable =>
        { status := "Runtime Error", summary := errSummary, tests := [],
          error := some ("Invalid runner output. Stdout: " ++ stdoutRaw
            ++ "\nStderr: " ++ stderrRaw),
          errorKind := some ("internal") }
    | .parsed testsRaw => buildSuccessResult testsRaw maxChars detailMode

end Runner

end Judge

/-- C4: the isolate executor's `run_problem` classifies each job from the
sandbox exit code and the parsed meta file as: meta `status=TO` → Time Limit
Exceeded (user); meta `cg-oom-killed` present and non-zero → Memory Limit
Exceeded (user); meta `status=XX` or meta file missing → Runtime Error
(internal); any other non-zero sandbox exit → Runtime Error (user); exit 0
with stdout parsing as JSON → the harness result with `error = null`;
exit 0 with unparseable stdout → Runtime Error (internal). -/
theorem Judge.Runner.isolate_classification
    (timeLimitS memoryMb : Int) (publicCount hiddenCount : Nat) (includeHidden : Bool)
    (totalCases : Nat) (maxChars : Int) (detailMode : String)
    (returncode : Int) (stdoutRaw stderrRaw : String) (sp : StdoutParse)
    (meta : List (String × String)) :
    (returncode ≠ 0 → metaGet meta ("status") = some ("TO") →
      (runProblemClassify timeLimitS memoryMb publicCount hiddenCount includeHidden
          totalCases maxChars detailMode returncode stdoutRaw stderrRaw sp meta).status =
        "Time Limit Exceeded" ∧
      (runProblemClassify timeLimitS memoryMb publicCount hiddenCount includeHidden
          totalCases maxChars detailMode returncode stdoutRaw stderrRaw sp meta).errorKind =
        some ("user")) ∧
    (returncode ≠ 0 → isolateFailedWithTle meta = false →
      (∃ v, metaGet meta ("cg-oom-killed") = some v ∧ v ≠ "" ∧ v ≠ "0") →
      (runProblemClassify timeLimitS memoryMb publicCount hiddenCount includeHidden
          totalCases maxChars detailMode returncode stdoutRaw stderrRaw sp meta).status =
        "Memory Limit Exceeded" ∧
      (runProblemClassify timeLimitS memoryMb publicCount hiddenCount includeHidden
          totalCases maxChars detailMode returncode stdoutRaw stderrRaw sp meta).errorKind =
        some ("user")) ∧
    (returncode ≠ 0 → isolateFailedWithTle meta = false → isolateFailedWithMle meta = false →
      (metaGet meta ("status") = some ("XX") ∨ meta = []) →
      (runProblemClassify timeLimitS memoryMb publicCount hiddenCount includeHidden
          totalCases maxChars detailMode returncode stdoutRaw stderrRaw sp meta).status =
        "Runtime Error" ∧
      (runProblemClassify timeLimitS memoryMb publicCount hiddenCount includeHidden
          totalCases maxChars detailMode returncode stdoutRaw stderrRaw sp meta).errorKind =
        some ("internal")) ∧
    (returncode ≠ 0 → isolateFailedWithTle meta = false → isolateFailedWithMle meta = false →
      isolateFailedWithInternal meta = false →
      (runProblemClassify timeLimitS memoryMb publicCount hiddenCount includeHidden
          totalCases maxChars detailMode returncode stdoutRaw stderrRaw sp meta).status =
        "Runtime Error" ∧
      (runProblemClassify timeLimitS memoryMb publicCount hiddenCount includeHidden
          totalCases maxChars detailMode returncode stdoutRaw stderrRaw sp meta).errorKind =
        some ("user")) ∧
    (returncode = 0 → ∀ cases, sp = .parsed cases →
      (runProblemClassify timeLimitS memoryMb publicCount hiddenCount includeHidden
          totalCases maxChars detailMode returncode stdoutRaw stderrRaw sp meta) =
        buildSuccessResult cases maxChars detailMode ∧
      (runProblemClassify timeLimitS memoryMb publicCount hiddenCount includeHidden
          totalCases maxChars detailMode returncode stdoutRaw stderrRaw sp meta).error =
        none) ∧
    (returncode = 0 → sp = .unparseable →
      (runProblemClassify timeLimitS memoryMb publicCount hiddenCount includeHidden
          totalCases maxChars detailMode returncode stdoutRaw stderrRaw sp meta).status =
        "Runtime Error" ∧
      (runProblemClassify timeLimitS memoryMb publicCount hiddenCount includeHidden
          totalCases maxChars detailMode returncode stdoutRaw stderrRaw sp meta).errorKind =
        some ("internal")) := by
  refine ⟨?_, ?_, ?_, ?_, ?_, ?_⟩
  · intro hrc hto
    have htle : isolateFailedWithTle meta = true := by
      simp [isolateFailedWithTle, hto]
    simp [runProblemClassify, hrc, htle]
  · intro hrc htle hmle
    obtain ⟨v, hv, hv1, hv2⟩ := hmle
    have hm : isolateFailedWithMle meta = true := by
      simp [isolateFailedWithMle, hv, hv1, hv2]
    simp [runProblemClassify, hrc, htle, hm]
  · intro hrc htle hmle hint
    have hi : isolateFailedWithInternal meta = true := by
      rcases hint with h | h
      · simp [isolateFailedWithInternal, h]
      · subst h
        simp [isolateFailedWithInternal, metaGet]
    simp [runProblemClassify, hrc, htle, hmle, hi]
  · intro hrc htle hmle hint
    simp [runProblemClassify, hrc, htle, hmle, hint]
  · intro hrc cases hsp
    subst hsp
    simp [runProblemClassify, hrc, buildSuccessResult]
  · intro hrc hsp
    subst hsp
    simp [runProblemClassify, hrc]

/-- C4 witness: each classification branch evaluated at a concrete input. -/
theorem Judge.Runner.isolate_classification_witness :
    ((runProblemClassify 1 64 0 0 true 0 5 ("all") 1 ("") ("") .unparseable
        [(("status"), ("TO"))]).status = "Time Limit Exceeded") ∧
    ((runProblemClassify 1 64 0 0 true 0 5 ("all") 1 ("") ("") .unparseable
        [(("status"), ("RE")), (("cg-oom-killed"), ("1"))]).status =
      "Memory Limit Exceeded") ∧
    ((runProblemClassify 1 64 0 0 true 0 5 ("all") 1 ("") ("") .unparseable
        []).errorKind = some ("internal")) ∧
    ((runProblemClassify 1 64 0 0 true 0 5 ("all") 1 ("") ("") .unparseable
        [(("status"), ("RE"))]).errorKind = some ("user")) ∧
    ((runProblemClassify 1 64 0 0 true 0 5 ("all") 0 ("[]") ("") (.parsed [])
        []).error = none) ∧
    ((runProblemClassify 1 64 0 0 true 0 5 ("all") 0 ("?") ("") .unparseable
        []).errorKind = some ("internal")) :=
  ⟨((Judge.Runner.isolate_classification 1 64 0 0 true 0 5 ("all") 1 ("") ("") .unparseable
      [(("status"), ("TO"))]).1 (by decide) rfl).1,
    ((Judge.Runner.isolate_classification 1 64 0 0 true 0 5 ("all") 1 ("") ("") .unparseable
      [(("status"), ("RE")), (("cg-oom-killed"), ("1"))]).2.1 (by decide) rfl
      ⟨("1"), rfl, by decide, by decide⟩).1,
    ((Judge.Runner.isolate_classification 1 64 0 0 true 0 5 ("all") 1 ("") ("") .unparseable
      []).2.2.1 (by decide) rfl rfl (Or.inr rfl)).2,
    ((Judge.Runner.isolate_classification 1 64 0 0 true 0 5 ("all") 1 ("") ("") .unparseable
      [(("status"), ("RE"))]).2.2.2.1 (by decide) rfl rfl rfl).2,
    ((Judge.Runner.isolate_classification 1 64 0 0 true 0 5 ("all") 0 ("[]") ("") (.parsed [])
      []).2.2.2.2.1 rfl [] rfl).2,
    ((Judge.Runner.isolate_classification 1 64 0 0 true 0 5 ("all") 0 ("?") ("") .unparseable
      []).2.2.2.2.2 rfl rfl).2⟩

namespace Judge

/-! ## Warm-fork executor (`judge/warm_executor.py`)

Embeds `_build_child_result`, the byte accounting of `_poll_child_io`, the
cgroup `was_oom_killed` probe, and the classification in
`WarmForkExecutor.run_problem` after `_run_child` returns. -/

namespace Warm

open Judge.Runner

def INFRA_ERROR_MARKER : String := "__WARM_FORK_INFRA_ERROR__"

/-- Embeds `_MAX_CHILD_OUTPUT_BYTES = 2 * 1024 * 1024`. -/
def MAX_CHILD_OUTPUT_BYTES : Nat := 2 * 1024 * 1024

structure ChildRunResult where
  returncode : Int
  stdout : String
  stderr : String
  timedOut : Bool
  oomKilled : Bool
  outputTruncated : Bool
  signum : Option Nat
deriving DecidableEq, Repr

/-- Exit information from `os.waitpid` (`WIFEXITED`/`WIFSIGNALED`). -/
inductive WaitStatus where
  | exited (code : Nat)
  | signaled (signum : Nat)
  | other
deriving DecidableEq, Repr

/-- Embeds `_build_child_result`. -/
def buildChildResult (status : WaitStatus) (stdout stderr : String)
    (timedOut oomKilled outputTruncated : Bool) : ChildRunResult :=
  if timedOut then ⟨1, stdout, stderr, true, oomKilled, outputTruncated, none⟩
  else
    match status with
    | .exited code => ⟨(code : Int), stdout, stderr, false, oomKilled, outputTruncated, none⟩
    | .signaled n => ⟨128 + (n : Int), stdout, stderr, false, oomKilled, outputTruncated, some n⟩
    | .other => ⟨1, stdout, stderr, false, oomKilled, outputTruncated, none⟩

/-- Embeds `_INFRA_ERROR_MARKER in child.stderr`. -/
def containsMarker (s : String) : Bool :=
  decide (INFRA_ERROR_MARKER.toList <:+: s.toList)

/-- Embeds `_CgroupV2Sandbox.was_oom_killed`: scan `memory.events` lines
(already split at the first space into key/value) for `oom_kill` and test
`int(value) > 0`; an unparseable value is the caught `ValueError` path. -/
def wasOomKilled (events : List (String × String)) : Bool :=
  match events.find? (fun p => decide (p.1 = "oom_kill")) with
  | none => false
  | some p =>
      match p.2.toNat? with
      | none => false
      | some n => 0 < n

/-- A chunk delivered by one poll read, tagged with its pipe. -/
inductive ChunkSrc where
  | out
  | err
deriving DecidableEq, Repr

structure Chunk where
  src : ChunkSrc
  data : List Nat
deriving DecidableEq, Repr

def totalBytes (chunks : List Chunk) : Nat :=
  (chunks.map (fun c => c.data.length)).sum

/-- Embeds the byte accounting of the `_poll_child_io` loop: each non-empty
read adds to `total_bytes`; the chunk is appended only while the running
total stays within the cap, otherwise it is read and dropped and the
truncation flag is set. -/
def pollAccumGo : List Chunk → Nat → Bool → List Chunk × Bool
  | [], _, trunc => ([], trunc)
  | c :: rest, total, trunc =>
      if 0 < c.data.length then
        if total + c.data.length ≤ MAX_CHILD_OUTPUT_BYTES then
          let r := pollAccumGo rest (total + c.data.length) trunc
          (c :: r.1, r.2)
        else
          pollAccumGo rest (total + c.data.length) true
      else
        pollAccumGo rest total trunc

def pollAccum (chunks : List Chunk) : List Chunk × Bool :=
  pollAccumGo chunks 0 false

theorem pollAccumGo_true (chunks : List Chunk) (total : Nat) :
    (pollAccumGo chunks total true).2 = true := by
  induction chunks generalizing total with
  | nil => rfl
  | cons c rest ih =>
      rw [pollAccumGo]
      split_ifs <;> simp [ih]

theorem pollAccumGo_kept_nil (chunks : List Chunk) (total : Nat) (trunc : Bool)
    (h : MAX_CHILD_OUTPUT_BYTES < total) :
    (pollAccumGo chunks total trunc).1 = [] := by
  induction chunks generalizing total trunc with
  | nil => rfl
  | cons c rest ih =>
      rw [pollAccumGo]
      split_ifs with h1 h2
      · omega
      · exact ih _ _ (by omega)
      · exact ih _ _ h

theorem pollAccumGo_trunc (chunks : List Chunk) (total : Nat)
    (h : total ≤ MAX_CHILD_OUTPUT_BYTES) :
    (pollAccumGo chunks total false).2 =
      decide (MAX_CHILD_OUTPUT_BYTES < total + totalBytes chunks) := by
  induction chunks generalizing total with
  | nil =>
      simp only [pollAccumGo, totalBytes, List.map_nil, List.sum_nil]
      rw [decide_eq_false (by omega)]
  | cons c rest ih =>
      rw [pollAccumGo]
      have htot : totalBytes (c :: rest) = c.data.length + totalBytes rest := by
        simp [totalBytes]
      split_ifs with h1 h2
      · rw [ih _ h2, htot, decide_eq_decide]
        omega
      · rw [pollAccumGo_true]
        symm
        rw [htot, decide_eq_true_eq]
        omega
      · rw [ih _ h, htot, decide_eq_decide]
        omega

theorem pollAccumGo_kept_le (chunks : List Chunk) (total : Nat) (trunc : Bool)
    (h : total ≤ MAX_CHILD_OUTPUT_BYTES) :
    total + totalBytes (pollAccumGo chunks total trunc).1 ≤ MAX_CHILD_OUTPUT_BYTES := by
  induction chunks generalizing total trunc with
  | nil =>
      simp only [pollAccumGo, totalBytes, List.map_nil, List.sum_nil]
      omega
  | cons c rest ih =>
      rw [pollAccumGo]
      split_ifs with h1 h2
      · have := ih (total + c.data.length) trunc h2
        simp only [totalBytes, List.map_cons, List.sum_cons] at this ⊢
        omega
      · rw [pollAccumGo_kept_nil _ _ _ (by omega)]
        simp only [totalBytes, List.map_nil, List.sum_nil]
        omega
      · exact ih total trunc h

/-- Embeds the classification in `WarmForkExecutor.run_problem` after
`_run_child` has produced a `_ChildRunResult`. -/
def warmClassify (timeLimitS memoryMb : Int) (publicCount hiddenCount : Nat)
    (includeHidden : Bool) (totalCases : Nat) (maxChars : Int) (detailMode : String)
    (child : ChildRunResult) (sp : StdoutParse) : RunResult :=
  let errSummary := buildErrorSummary publicCount hiddenCount includeHidden totalCases
  if child.oomKilled then
    { status := "Memory Limit Exceeded", summary := errSummary, tests := [],
      error := some ("Memory Limit Exceeded (" ++ toString memoryMb ++ "MB)"),
      errorKind := some ("user") }
  else if child.timedOut then
    { status := "Time Limit Exceeded", summary := errSummary, tests := [],
      error := some ("Time Limit Exceeded (" ++ toString timeLimitS ++ "s)"),
      errorKind := some ("user") }
  else if child.returncode ≠ 0 then
    let errorKind := if containsMarker child.stderr then "internal" else "user"
    let detail := if child.stderr.trim = "" then "Runner failed" else child.stderr.trim
    let detail :=
      if child.signum.isSome ∧ detail = "" then
        "Runner killed by signal " ++ toString (child.signum.getD 0)
      else detail
    { status := "Runtime Error", summary := errSummary, tests := [],
      error := some detail, errorKind := some errorKind }
  else if child.outputTruncated then
    { status := "Runtime Error", summary := errSummary, tests := [],
      error := some ("Output Limit Exceeded ("
        ++ toString (MAX_CHILD_OUTPUT_BYTES / (1024 * 1024)) ++ "MB)"),
      errorKind := some ("user") }
  else
    match sp with
    | .unparseable =>
        { status := "Runtime Error", summary := errSummary, tests := [],
          error := some ("Invalid runner output. Stdout: " ++ child.stdout
            ++ "\nStderr: " ++ child.stderr),
          errorKind := some ("internal") }
    | .parsed testsRaw => buildSuccessResult testsRaw maxChars detailMode

end Warm

end Judge

/-- C3: the warm-fork executor's `run_problem` classifies each job with this
precedence: cgroup oom_kill (from `memory.events`) → Memory Limit Exceeded
(user); parent deadline fired → Time Limit Exceeded (user); child exited
non-zero with the infra marker in stderr → Runtime Error (internal),
non-zero otherwise → Runtime Error (user), a signal-killed child carrying
returncode 128+signum; combined output beyond the 2 MiB cap (bytes beyond
the cap are read and dropped) → Runtime Error (user, "Output Limit
Exceeded"); exit 0 with stdout parsing as JSON → the harness result with
`error = null`; exit 0 with unparseable stdout → Runtime Error (internal). -/
theorem Judge.Warm.warm_classification
    (timeLimitS memoryMb : Int) (publicCount hiddenCount : Nat) (includeHidden : Bool)
    (totalCases : Nat) (maxChars : Int) (detailMode : String)
    (child : ChildRunResult) (sp : Judge.Runner.StdoutParse) :
    (child.oomKilled = true →
      (warmClassify timeLimitS memoryMb publicCount hiddenCount includeHidden totalCases
          maxChars detailMode child sp).status = "Memory Limit Exceeded" ∧
      (warmClassify timeLimitS memoryMb publicCount hiddenCount includeHidden totalCases
          maxChars detailMode child sp).errorKind = some ("user")) ∧
    (child.oomKilled = false → child.timedOut = true →
      (warmClassify timeLimitS memoryMb publicCount hiddenCount includeHidden totalCases
          maxChars detailMode child sp).status = "Time Limit Exceeded" ∧
      (warmClassify timeLimitS memoryMb publicCount hiddenCount includeHidden totalCases
          maxChars detailMode child sp).errorKind = some ("user")) ∧
    (child.oomKilled = false → child.timedOut = false → child.returncode ≠ 0 →
      containsMarker child.stderr = true →
      (warmClassify timeLimitS memoryMb publicCount hiddenCount includeHidden totalCases
          maxChars detailMode child sp).status = "Runtime Error" ∧
      (warmClassify timeLimitS memoryMb publicCount hiddenCount includeHidden totalCases
          maxChars detailMode child sp).errorKind = some ("internal")) ∧
    (child.oomKilled = false → child.timedOut = false → child.returncode ≠ 0 →
      containsMarker child.stderr = false →
      (warmClassify timeLimitS memoryMb publicCount hiddenCount includeHidden totalCases
          maxChars detailMode child sp).status = "Runtime Error" ∧
      (warmClassify timeLimitS memoryMb publicCount hiddenCount includeHidden totalCases
          maxChars detailMode child sp).errorKind = some ("user")) ∧
    (∀ (n : Nat) (so sb : String) (oomb trb : Bool),
      (buildChildResult (.signaled n) so sb false oomb trb).returncode = 128 + (n : Int) ∧
      (buildChildResult (.signaled n) so sb false oomb trb).signum = some n) ∧
    (child.oomKilled = false → child.timedOut = false → child.returncode = 0 →
      child.outputTruncated = true →
      (warmClassify timeLimitS memoryMb publicCount hiddenCount includeHidden totalCases
          maxChars detailMode child sp).status = "Runtime Error" ∧
      (warmClassify timeLimitS memoryMb publicCount hiddenCount includeHidden totalCases
          maxChars detailMode child sp).errorKind = some ("user") ∧
      (warmClassify timeLimitS memoryMb publicCount hiddenCount includeHidden totalCases
          maxChars detailMode child sp).error = some ("Output Limit Exceeded (2MB)")) ∧
    (child.oomKilled = false → child.timedOut = false → child.returncode = 0 →
      child.outputTruncated = false → ∀ cases, sp = .parsed cases →
      (warmClassify timeLimitS memoryMb publicCount hiddenCount includeHidden totalCases
          maxChars detailMode child sp) = Judge.Runner.buildSuccessResult cases maxChars detailMode ∧
      (warmClassify timeLimitS memoryMb publicCount hiddenCount includeHidden totalCases
          maxChars detailMode child sp).error = none) ∧
    (child.oomKilled = false → child.timedOut = false → child.returncode = 0 →
      child.outputTruncated = false → sp = .unparseable →
      (warmClassify timeLimitS memoryMb publicCount hiddenCount includeHidden totalCases
          maxChars detailMode child sp).status = "Runtime Error" ∧
      (warmClassify timeLimitS memoryMb publicCount hiddenCount includeHidden totalCases
          maxChars detailMode child sp).errorKind = some ("internal")) ∧
    (∀ chunks : List Chunk,
      (pollAccum chunks).2 = decide (MAX_CHILD_OUTPUT_BYTES < totalBytes chunks) ∧
      totalBytes (pollAccum chunks).1 ≤ MAX_CHILD_OUTPUT_BYTES) := by
  refine ⟨?_, ?_, ?_, ?_, ?_, ?_, ?_, ?_, ?_⟩
  · intro hoom
    simp [warmClassify, hoom]
  · intro hoom htime
    simp [warmClassify, hoom, htime]
  · intro hoom htime hrc hmark
    simp [warmClassify, hoom, htime, hrc, hmark]
  · intro hoom htime hrc hmark
    simp [warmClassify, hoom, htime, hrc, hmark]
  · intro n so sb oomb trb
    exact ⟨rfl, rfl⟩
  · intro hoom htime hrc htr
    refine ⟨?_, ?_, ?_⟩
    · simp [warmClassify, hoom, htime, hrc, htr]
    · simp [warmClassify, hoom, htime, hrc, htr]
    · simp [warmClassify, hoom, htime, hrc, htr]
      rfl
  · intro hoom htime hrc htr cases hsp
    subst hsp
    constructor <;> simp [warmClassify, hoom, htime, hrc, htr, Judge.Runner.buildSuccessResult]
  · intro hoom htime hrc htr hsp
    subst hsp
    simp [warmClassify, hoom, htime, hrc, htr]
  · intro chunks
    constructor
    · have := pollAccumGo_trunc chunks 0 (Nat.zero_le _)
      rw [pollAccum, this, decide_eq_decide]
      omega
    · have := pollAccumGo_kept_le chunks 0 false (Nat.zero_le _)
      rw [pollAccum]
      omega

/-- C3 witness: each classification branch and the output-cap accounting
evaluated at a concrete input. -/
theorem Judge.Warm.warm_classification_witness :
    ((warmClassify 1 64 0 0 true 0 5 ("all")
        ⟨1, "", "", false, true, false, none⟩ .unparseable).status =
      "Memory Limit Exceeded") ∧
    ((warmClassify 1 64 0 0 true 0 5 ("all")
        ⟨1, "", "", true, false, false, none⟩ .unparseable).status =
      "Time Limit Exceeded") ∧
    ((warmClassify 1 64 0 0 true 0 5 ("all")
        ⟨1, "", "x __WARM_FORK_INFRA_ERROR__ y", false, false, false, none⟩
        .unparseable).errorKind = some ("internal")) ∧
    ((warmClassify 1 64 0 0 true 0 5 ("all")
        ⟨139, "", "boom", false, false, false, some 11⟩ .unparseable).errorKind =
      some ("user")) ∧
    ((buildChildResult (.signaled 11) ("") ("") false false false).returncode = 139) ∧
    ((warmClassify 1 64 0 0 true 0 5 ("all")
        ⟨0, "", "", false, false, true, none⟩ .unparseable).error =
      some ("Output Limit Exceeded (2MB)")) ∧
    ((warmClassify 1 64 0 0 true 0 5 ("all")
        ⟨0, "[]", "", false, false, false, none⟩ (.parsed [])).error = none) ∧
    ((warmClassify 1 64 0 0 true 0 5 ("all")
        ⟨0, "?", "", false, false, false, none⟩ .unparseable).errorKind =
      some ("internal")) ∧
    (pollAccum [⟨.out, [65]⟩]).2 =
      decide (MAX_CHILD_OUTPUT_BYTES < totalBytes [⟨.out, [65]⟩]) := by
  refine ⟨?_, ?_, ?_, ?_, ?_, ?_, ?_, ?_, ?_⟩
  · exact ((Judge.Warm.warm_classification 1 64 0 0 true 0 5 ("all")
      ⟨1, "", "", false, true, false, none⟩ .unparseable).1 rfl).1
  · exact ((Judge.Warm.warm_classification 1 64 0 0 true 0 5 ("all")
      ⟨1, "", "", true, false, false, none⟩ .unparseable).2.1 rfl rfl).1
  · exact ((Judge.Warm.warm_classification 1 64 0 0 true 0 5 ("all")
      ⟨1, "", "x __WARM_FORK_INFRA_ERROR__ y", false, false, false, none⟩
      .unparseable).2.2.1 rfl rfl (by decide) (by decide)).2
  · exact ((Judge.Warm.warm_classification 1 64 0 0 true 0 5 ("all")
      ⟨139, "", "boom", false, false, false, some 11⟩ .unparseable).2.2.2.1
      rfl rfl (by decide) (by decide)).2
  · exact ((Judge.Warm.warm_classification 1 64 0 0 true 0 5 ("all")
      ⟨139, "", "", false, false, false, some 11⟩ .unparseable).2.2.2.2.1
      11 ("") ("") false false).1
  · exact ((Judge.Warm.warm_classification 1 64 0 0 true 0 5 ("all")
      ⟨0, "", "", false, false, true, none⟩ .unparseable).2.2.2.2.2.1
      rfl rfl rfl rfl).2.2
  · exact ((Judge.Warm.warm_classification 1 64 0 0 true 0 5 ("all")
      ⟨0, "[]", "", false, false, false, none⟩ (.parsed [])).2.2.2.2.2.2.1
      rfl rfl rfl rfl [] rfl).2
  · exact ((Judge.Warm.warm_classification 1 64 0 0 true 0 5 ("all")
      ⟨0, "?", "", false, false, false, none⟩ .unparseable).2.2.2.2.2.2.2.1
      rfl rfl rfl rfl rfl).2
  · exact ((Judge.Warm.warm_classification 1 64 0 0 true 0 5 ("all")
      ⟨0, "?", "", false, false, false, none⟩ .unparseable).2.2.2.2.2.2.2.2
      [⟨.out, [65]⟩]).1

namespace Judge

/-! ## Redis queue payload validation (`judge/queue.py`)

Embeds `_require_non_empty_str` and `RedisQueue.enqueue`'s field
validation.  A payload field is a Python value (`payload.get(key)` with
`none` for an absent key); `enqueue` either raises (`Except.error`, before
`xadd` is ever reached) or returns the exact field map handed to `xadd`. -/

namespace Queue

/-- A Python value occupying one payload field. -/
inductive PyField where
  | str (s : String)
  | int (n : Int)
  | bool (b : Bool)
  | other
deriving DecidableEq, Repr

/-- An enqueue payload; `none` means the key is absent. -/
structure Payload where
  jobId : Option PyField
  problemId : Option PyField
  problemKey : Option PyField
  profile : Option PyField
  kind : Option PyField
  code : Option PyField
  createdAt : Option PyField
deriving DecidableEq, Repr

/-- The field map written to the stream (`xadd(stream, fields)`). -/
structure StreamFields where
  jobId : String
  problemId : String
  problemKey : String
  profile : String
  kind : String
  code : String
  createdAt : String
deriving DecidableEq, Repr

/-- Embeds Python `str.strip()`: drop whitespace from both ends. -/
def stripChars (l : List Char) : List Char :=
  ((l.dropWhile Char.isWhitespace).reverse.dropWhile Char.isWhitespace).reverse

/-- Embeds `value.strip()` on a Python `str`. -/
def pyStrip (s : String) : String :=
  ⟨stripChars s.data⟩

/-- Embeds `_require_non_empty_str`: the value must be a `str` whose strip
is truthy; returns the stripped value. -/
def requireNonEmptyStr (v : Option PyField) (key : String) : Except String String :=
  match v with
  | some (.str s) =>
      if pyStrip s = "" then
        .error ("Queue payload field '" ++ key ++ "' must be a non-empty string")
      else
        .ok (pyStrip s)
  | _ => .error ("Queue payload field '" ++ key ++ "' must be a non-empty string")

/-- Embeds Python `str.isdigit` on ASCII content: non-empty and all digits. -/
def isDigitStr (s : String) : Bool :=
  !(s.toList.isEmpty) && s.toList.all (fun c => c.isDigit)

/-- Embeds `RedisQueue.enqueue` up to the `xadd` call: every `raise` is an
`Except.error`; success returns the exact `fields` dict passed to `xadd`. -/
def enqueue (p : Payload) : Except String StreamFields :=
  match requireNonEmptyStr p.jobId ("job_id") with
  | .error e => .error e
  | .ok jobId =>
    match requireNonEmptyStr p.problemId ("problem_id") with
    | .error e => .error e
    | .ok problemId =>
      match p.problemKey.getD (.str problemId) with
      | .str s =>
        if pyStrip s = "" then
          .error ("Queue payload field 'problem_key' must be a non-empty string")
        else
          match requireNonEmptyStr p.profile ("profile") with
          | .error e => .error e
          | .ok profile =>
            match p.kind.getD (.str ("submit")) with
            | .str kind =>
              if kind = "run" ∨ kind = "submit" then
                match p.code.getD (.str ("")) with
                | .str code =>
                  match p.createdAt with
                  | none =>
                      .ok ⟨jobId, problemId, pyStrip s, profile, kind, code, ""⟩
                  | some (.int n) =>
                      .ok ⟨jobId, problemId, pyStrip s, profile, kind, code, toString n⟩
                  | some (.str ca) =>
                      if isDigitStr (pyStrip ca) then
                        .ok ⟨jobId, problemId, pyStrip s, profile, kind, code, pyStrip ca⟩
                      else
                        .error ("Queue payload field 'created_at' must be an integer unix timestamp")
                  | some _ =>
                      .error ("Queue payload field 'created_at' must be an integer unix timestamp")
                | _ => .error ("Queue payload field 'code' must be a string")
              else
                .error ("Queue payload field 'kind' must be one of: run, submit")
            | _ => .error ("Queue payload field 'kind' must be one of: run, submit")
      | _ =>
          .error ("Queue payload field 'problem_key' must be a non-empty string")

/-- A payload value that `_require_non_empty_str` accepts. -/
def ValidNES (v : Option PyField) : Prop :=
  ∃ s, v = some (.str s) ∧ pyStrip s ≠ ""

theorem requireNonEmptyStr_err (v : Option PyField) (key : String) (h : ¬ ValidNES v) :
    requireNonEmptyStr v key =
      .error ("Queue payload field '" ++ key ++ "' must be a non-empty string") := by
  match v with
  | none => rfl
  | some (.int n) => rfl
  | some (.bool b) => rfl
  | some .other => rfl
  | some (.str s) =>
      rw [requireNonEmptyStr, if_pos]
      by_contra hne
      exact h ⟨s, rfl, hne⟩

theorem requireNonEmptyStr_ok (v : Option PyField) (key t : String)
    (h : requireNonEmptyStr v key = .ok t) : t ≠ "" := by
  match v with
  | none => exact absurd h (by simp [requireNonEmptyStr])
  | some (.int n) => exact absurd h (by simp [requireNonEmptyStr])
  | some (.bool b) => exact absurd h (by simp [requireNonEmptyStr])
  | some .other => exact absurd h (by simp [requireNonEmptyStr])
  | some (.str s) =>
      rw [requireNonEmptyStr] at h
      split_ifs at h with hs
      simp only [Except.ok.injEq] at h
      subst h
      exact hs

end Queue

end Judge

namespace Judge

namespace Queue

theorem requireNonEmptyStr_ok_valid (v : Option PyField) (key t : String)
    (h : requireNonEmptyStr v key = .ok t) : ValidNES v := by
  match v with
  | none => exact absurd h (by simp [requireNonEmptyStr])
  | some (.int n) => exact absurd h (by simp [requireNonEmptyStr])
  | some (.bool b) => exact absurd h (by simp [requireNonEmptyStr])
  | some .other => exact absurd h (by simp [requireNonEmptyStr])
  | some (.str s) =>
      rw [requireNonEmptyStr] at h
      split_ifs at h with hs
      exact ⟨s, rfl, hs⟩

/-- Success of `enqueue` forces every field validation, and the fields
written to the stream satisfy the queue-payload invariant. -/
theorem enqueue_ok_spec (p : Payload) (f : StreamFields) (hok : enqueue p = .ok f) :
    (ValidNES p.jobId ∧ ValidNES p.problemId ∧ ValidNES p.profile ∧
      (∀ v, p.problemKey = some v → ∃ s, v = .str s ∧ pyStrip s ≠ "") ∧
      (∀ v, p.kind = some v → ∃ s, v = .str s ∧ (s = "run" ∨ s = "submit")) ∧
      (∀ v, p.code = some v → ∃ s, v = .str s) ∧
      (∀ v, p.createdAt = some v →
        (∃ n, v = .int n) ∨ (∃ s, v = .str s ∧ isDigitStr (pyStrip s) = true))) ∧
    (f.jobId ≠ "" ∧ f.problemId ≠ "" ∧ f.profile ≠ "" ∧
      (f.kind = "run" ∨ f.kind = "submit")) := by
  unfold enqueue at hok
  cases h1 : requireNonEmptyStr p.jobId ("job_id") with
  | error e =>
      simp only [h1] at hok
      exact absurd hok (by simp)
  | ok jobId =>
  simp only [h1] at hok
  cases h2 : requireNonEmptyStr p.problemId ("problem_id") with
  | error e =>
      simp only [h2] at hok
      exact absurd hok (by simp)
  | ok problemId =>
  simp only [h2] at hok
  cases hk : p.problemKey.getD (.str problemId) with
  | int n =>
      simp only [hk] at hok
      exact absurd hok (by simp)
  | bool b =>
      simp only [hk] at hok
      exact absurd hok (by simp)
  | other =>
      simp only [hk] at hok
      exact absurd hok (by simp)
  | str s =>
  simp only [hk] at hok
  by_cases hs : pyStrip s = ""
  · rw [if_pos hs] at hok
    exact absurd hok (by simp)
  rw [if_neg hs] at hok
  cases h3 : requireNonEmptyStr p.profile ("profile") with
  | error e =>
      simp only [h3] at hok
      exact absurd hok (by simp)
  | ok profile =>
  simp only [h3] at hok
  cases hkd : p.kind.getD (.str ("submit")) with
  | int n =>
      simp only [hkd] at hok
      exact absurd hok (by simp)
  | bool b =>
      simp only [hkd] at hok
      exact absurd hok (by simp)
  | other =>
      simp only [hkd] at hok
      exact absurd hok (by simp)
  | str kind =>
  simp only [hkd] at hok
  by_cases hkv : kind = "run" ∨ kind = "submit"
  swap
  · rw [if_neg hkv] at hok
    exact absurd hok (by simp)
  rw [if_pos hkv] at hok
  cases hcd : p.code.getD (.str ("")) with
  | int n =>
      simp only [hcd] at hok
      exact absurd hok (by simp)
  | bool b =>
      simp only [hcd] at hok
      exact absurd hok (by simp)
  | other =>
      simp only [hcd] at hok
      exact absurd hok (by simp)
  | str code =>
  simp only [hcd] at hok
  have hbase : ValidNES p.jobId ∧ ValidNES p.problemId ∧ ValidNES p.profile ∧
      (∀ v, p.problemKey = some v → ∃ u, v = .str u ∧ pyStrip u ≠ "") ∧
      (∀ v, p.kind = some v → ∃ u, v = .str u ∧ (u = "run" ∨ u = "submit")) ∧
      (∀ v, p.code = some v → ∃ u, v = .str u) := by
    refine ⟨requireNonEmptyStr_ok_valid _ _ _ h1, requireNonEmptyStr_ok_valid _ _ _ h2,
      requireNonEmptyStr_ok_valid _ _ _ h3, ?_, ?_, ?_⟩
    · intro v hv
      rw [hv] at hk
      exact ⟨s, hk ▸ rfl, hs⟩
    · intro v hv
      rw [hv] at hkd
      exact ⟨kind, hkd ▸ rfl, hkv⟩
    · intro v hv
      rw [hv] at hcd
      exact ⟨code, hcd ▸ rfl⟩
  have hkindne : kind ≠ "" := by
    rcases hkv with h | h <;> subst h <;> decide
  cases hca : p.createdAt with
  | none =>
      rw [hca] at hok
      simp only [Except.ok.injEq] at hok
      subst hok
      exact ⟨⟨hbase.1, hbase.2.1, hbase.2.2.1, hbase.2.2.2.1, hbase.2.2.2.2.1,
          hbase.2.2.2.2.2, fun v hv => by simp at hv⟩,
        requireNonEmptyStr_ok _ _ _ h1, requireNonEmptyStr_ok _ _ _ h2,
        requireNonEmptyStr_ok _ _ _ h3, hkv⟩
  | some v =>
      rw [hca] at hok
      cases v with
      | int n =>
          simp only [Except.ok.injEq] at hok
          subst hok
          exact ⟨⟨hbase.1, hbase.2.1, hbase.2.2.1, hbase.2.2.2.1, hbase.2.2.2.2.1,
              hbase.2.2.2.2.2,
              fun w hw => by cases hw; exact Or.inl ⟨n, rfl⟩⟩,
            requireNonEmptyStr_ok _ _ _ h1, requireNonEmptyStr_ok _ _ _ h2,
            requireNonEmptyStr_ok _ _ _ h3, hkv⟩
      | bool b => exact absurd hok (by simp)
      | other => exact absurd hok (by simp)
      | str ca =>
          dsimp only at hok
          by_cases hdig : isDigitStr (pyStrip ca) = true
          · rw [if_pos hdig] at hok
            simp only [Except.ok.injEq] at hok
            subst hok
            exact ⟨⟨hbase.1, hbase.2.1, hbase.2.2.1, hbase.2.2.2.1, hbase.2.2.2.2.1,
                hbase.2.2.2.2.2,
                fun w hw => by cases hw; exact Or.inr ⟨ca, rfl, hdig⟩⟩,
              requireNonEmptyStr_ok _ _ _ h1, requireNonEmptyStr_ok _ _ _ h2,
              requireNonEmptyStr_ok _ _ _ h3, hkv⟩
          · rw [if_neg hdig] at hok
            exact absurd hok (by simp)

end Queue

end Judge

/-- C5: `enqueue` raises (so no stream entry is written) whenever `job_id`,
`problem_id`, or `profile` is not a non-empty trimmed string, a supplied
`problem_key` is not a non-empty trimmed string, the effective `kind` is
not in `{run, submit}`, a supplied `code` is not a string, or a supplied
`created_at` is neither an integer nor a digit-only string; consequently no
stream entry is ever written in which any of `job_id`, `problem_id`,
`profile`, `kind` is empty or `kind` is outside `{run, submit}`. -/
theorem Judge.Queue.enqueue_validation (p : Payload) :
    (¬ ValidNES p.jobId → ∃ e, enqueue p = .error e) ∧
    (¬ ValidNES p.problemId → ∃ e, enqueue p = .error e) ∧
    (¬ ValidNES p.profile → ∃ e, enqueue p = .error e) ∧
    (∀ v, p.problemKey = some v → (¬ ∃ s, v = .str s ∧ pyStrip s ≠ "") →
      ∃ e, enqueue p = .error e) ∧
    (∀ v, p.kind = some v → (¬ ∃ s, v = .str s ∧ (s = "run" ∨ s = "submit")) →
      ∃ e, enqueue p = .error e) ∧
    (∀ v, p.code = some v → (¬ ∃ s, v = .str s) → ∃ e, enqueue p = .error e) ∧
    (∀ v, p.createdAt = some v → (¬ ∃ n, v = .int n) →
      (¬ ∃ s, v = .str s ∧ isDigitStr (pyStrip s) = true) → ∃ e, enqueue p = .error e) ∧
    (∀ f, enqueue p = .ok f →
      f.jobId ≠ "" ∧ f.problemId ≠ "" ∧ f.profile ≠ "" ∧
      (f.kind = "run" ∨ f.kind = "submit")) := by
  refine ⟨?_, ?_, ?_, ?_, ?_, ?_, ?_, ?_⟩
  · intro h
    cases henq : enqueue p with
    | error e => exact ⟨e, rfl⟩
    | ok f => exact absurd (enqueue_ok_spec p f henq).1.1 h
  · intro h
    cases henq : enqueue p with
    | error e => exact ⟨e, rfl⟩
    | ok f => exact absurd (enqueue_ok_spec p f henq).1.2.1 h
  · intro h
    cases henq : enqueue p with
    | error e => exact ⟨e, rfl⟩
    | ok f => exact absurd (enqueue_ok_spec p f henq).1.2.2.1 h
  · intro v hv h
    cases henq : enqueue p with
    | error e => exact ⟨e, rfl⟩
    | ok f => exact absurd ((enqueue_ok_spec p f henq).1.2.2.2.1 v hv) h
  · intro v hv h
    cases henq : enqueue p with
    | error e => exact ⟨e, rfl⟩
    | ok f => exact absurd ((enqueue_ok_spec p f henq).1.2.2.2.2.1 v hv) h
  · intro v hv h
    cases henq : enqueue p with
    | error e => exact ⟨e, rfl⟩
    | ok f => exact absurd ((enqueue_ok_spec p f henq).1.2.2.2.2.2.1 v hv) h
  · intro v hv hn hd
    cases henq : enqueue p with
    | error e => exact ⟨e, rfl⟩
    | ok f =>
        rcases (enqueue_ok_spec p f henq).1.2.2.2.2.2.2 v hv with h | h
        · exact absurd h hn
        · exact absurd h hd
  · intro f hok
    exact (enqueue_ok_spec p f hok).2

/-- C5 witness: each validation rejection and the success invariant at
concrete payloads. -/
theorem Judge.Queue.enqueue_validation_witness :
    (∃ e, enqueue ⟨some (.str (" ")), some (.str ("p")), none, some (.str ("light")),
        none, none, none⟩ = .error e) ∧
    (∃ e, enqueue ⟨some (.str ("j")), some (.str ("p")), some (.int 3),
        some (.str ("light")), none, none, none⟩ = .error e) ∧
    (∃ e, enqueue ⟨some (.str ("j")), some (.str ("p")), none, some (.str ("light")),
        some (.str ("delete")), none, none⟩ = .error e) ∧
    (∃ e, enqueue ⟨some (.str ("j")), some (.str ("p")), none, some (.str ("light")),
        none, some (.int 1), none⟩ = .error e) ∧
    (∃ e, enqueue ⟨some (.str ("j")), some (.str ("p")), none, some (.str ("light")),
        none, none, some (.str ("12a"))⟩ = .error e) ∧
    (("j" : String) ≠ "" ∧ ("p" : String) ≠ "" ∧ ("light" : String) ≠ "" ∧
      (("run" : String) = "run" ∨ ("run" : String) = "submit")) := by
  refine ⟨?_, ?_, ?_, ?_, ?_, ?_⟩
  · exact (Judge.Queue.enqueue_validation _).1
      (by rintro ⟨s, hs, hne⟩; cases hs; exact hne rfl)
  · exact (Judge.Queue.enqueue_validation _).2.2.2.1 (.int 3) rfl
      (by rintro ⟨s, hs, _⟩; cases hs)
  · exact (Judge.Queue.enqueue_validation _).2.2.2.2.1 (.str ("delete")) rfl
      (by rintro ⟨s, hs, hc⟩; cases hs; rcases hc with h | h <;> exact absurd h (by decide))
  · exact (Judge.Queue.enqueue_validation _).2.2.2.2.2.1 (.int 1) rfl
      (by rintro ⟨s, hs⟩; cases hs)
  · exact (Judge.Queue.enqueue_validation _).2.2.2.2.2.2.1 (.str ("12a")) rfl
      (by rintro ⟨n, h⟩; cases h)
      (by rintro ⟨s, hs, hd⟩; cases hs; exact absurd hd (by decide))
  · exact (Judge.Queue.enqueue_validation
        ⟨some (.str ("j")), some (.str ("p")), none, some (.str ("light")),
          some (.str ("run")), some (.str ("x")), none⟩).2.2.2.2.2.2.2
      ⟨"j", "p", "p", "light", "run", "x", ""⟩ rfl

namespace Judge

namespace Warm

/-- The observable setup steps of `_prepare_child_sandbox`, in program
order. -/
inductive SandboxAction where
  | setsid
  | applyChildEnv
  | umask
  | setNoNewPrivs
  | applyResourceLimits
  | applySeccompFilter
  | closeInheritedFds
deriving DecidableEq, Repr

/-- Embeds `_prepare_child_sandbox` as the sequence of setup actions it
performs: `setsid`; environment scrub; umask; then — guarded by the two
feature flags — `no_new_privs`, resource limits, the seccomp filter, and
finally closing inherited fds. -/
def prepareChildSandbox (enableNoNewPrivs enableSeccomp : Bool) : List SandboxAction :=
  [SandboxAction.setsid, SandboxAction.applyChildEnv, SandboxAction.umask]
    ++ (if enableNoNewPrivs then [SandboxAction.setNoNewPrivs] else [])
    ++ [SandboxAction.applyResourceLimits]
    ++ (if enableSeccomp then [SandboxAction.applySeccompFilter] else [])
    ++ [SandboxAction.closeInheritedFds]

end Warm

end Judge

/-- C7: in the warm-fork child's per-job setup with both features enabled,
`no_new_privs` is applied strictly before the resource limits, the resource
limits strictly before the seccomp filter, and the seccomp filter strictly
before inherited file descriptors are closed. -/
theorem Judge.Warm.sandbox_order (nnp sec : Bool) (hn : nnp = true) (hs : sec = true) :
    (SandboxAction.setNoNewPrivs ∈ prepareChildSandbox nnp sec ∧
      SandboxAction.applyResourceLimits ∈ prepareChildSandbox nnp sec ∧
      SandboxAction.applySeccompFilter ∈ prepareChildSandbox nnp sec ∧
      SandboxAction.closeInheritedFds ∈ prepareChildSandbox nnp sec) ∧
    (prepareChildSandbox nnp sec).indexOf SandboxAction.setNoNewPrivs <
      (prepareChildSandbox nnp sec).indexOf SandboxAction.applyResourceLimits ∧
    (prepareChildSandbox nnp sec).indexOf SandboxAction.applyResourceLimits <
      (prepareChildSandbox nnp sec).indexOf SandboxAction.applySeccompFilter ∧
    (prepareChildSandbox nnp sec).indexOf SandboxAction.applySeccompFilter <
      (prepareChildSandbox nnp sec).indexOf SandboxAction.closeInheritedFds := by
  subst hn hs
  decide

/-- C7 witness: the ordering at the enabled flags. -/
theorem Judge.Warm.sandbox_order_witness :
    (Judge.Warm.prepareChildSandbox true true).indexOf SandboxAction.setNoNewPrivs <
      (Judge.Warm.prepareChildSandbox true true).indexOf SandboxAction.applyResourceLimits :=
  (Judge.Warm.sandbox_order true true rfl rfl).2.1

namespace Judge

/-! ## Problem store (`judge/problems.py`)

Embeds `_safe_problem_path` and the `ProblemRepository` lookups.  The
filesystem is abstracted as lookup maps from paths to parsed contents
(`manifest.json` → manifest dict, tests path → parsed case list); a lookup
that raises before consulting the maps models "raises before resolving any
path under the problem root".  Manifest fields not consulted by the claims
(`runner`, `comparison`) are carried as opaque defaults. -/

namespace Problems

/-- Embeds `problem_id.startswith("/")`. -/
def startsWithSlash (pid : String) : Bool :=
  match pid.data with
  | [] => false
  | c :: _ => c = '/'

/-- Embeds Python `problem_id.split("/")` (split on every slash, keeping
empty segments). -/
def splitSlash : List Char → List (List Char)
  | [] => [[]]
  | c :: rest =>
      let r := splitSlash rest
      if c = '/' then [] :: r
      else
        match r with
        | [] => [[c]]
        | h :: t => (c :: h) :: t

/-- Embeds `_safe_problem_path`: reject ids starting with `/` or containing
`..` as a path segment, else resolve `root / problem_id`. -/
def safeProblemPath (root pid : String) : Except String String :=
  if startsWithSlash pid || (splitSlash pid.data).contains ([('.' : Char), '.']) then
    .error ("Invalid problem id")
  else
    .ok (root ++ "/" ++ pid)

/-- A parsed `manifest.json` (`None` field = key absent, defaults applied
at the consumer as in the source). -/
structure ManifestData where
  id : Option String
  version : Option String
  requiresTorch : Option Bool
  timeLimitS : Option Int
  memoryMb : Option Int
deriving DecidableEq, Repr

structure ProblemRouteInfo where
  id : String
  version : String
  requiresTorch : Bool
  timeLimitS : Int
  memoryMb : Int
deriving DecidableEq, Repr

/-- A parsed test case as stored in the tests bundles (fields the lookups
move around; the harness-facing fields live in the runner model). -/
structure TestCaseData where
  id : String
  inputCode : String
  hidden : Bool
deriving DecidableEq, Repr

structure ProblemData where
  id : String
  version : String
  requiresTorch : Bool
  timeLimitS : Int
  memoryMb : Int
  publicTests : List TestCaseData
  hiddenTests : List TestCaseData
deriving DecidableEq, Repr

/-- Embeds `_load_manifest`: resolve the problem dir (the traversal gate),
then read `manifest.json`, raising `FileNotFoundError` when absent. -/
def loadManifest (fs : String → Option ManifestData) (root pid : String) :
    Except String ManifestData :=
  match safeProblemPath root pid with
  | .error e => .error e
  | .ok dir =>
      match fs (dir ++ "/manifest.json") with
      | none => .error ("manifest.json not found for " ++ pid)
      | some m => .ok m

/-- Embeds `ProblemRepository.get_route_info`. -/
def getRouteInfo (fs : String → Option ManifestData) (root pid : String) :
    Except String ProblemRouteInfo :=
  match loadManifest fs root pid with
  | .error e => .error e
  | .ok m =>
      .ok ⟨m.id.getD pid, m.version.getD ("v1"), m.requiresTorch.getD false,
        m.timeLimitS.getD 10, m.memoryMb.getD 1024⟩

/-- Embeds `_load_tests`: resolve the problem dir (the traversal gate again),
read the bundle (absent file → `[]`), and apply the hidden override. -/
def loadTests (tfs : String → Option (List TestCaseData)) (root pid : String)
    (isHiddenTests : Bool) : Except String (List TestCaseData) :=
  match safeProblemPath root pid with
  | .error e => .error e
  | .ok dir =>
      let file := if isHiddenTests then "hidden_tests.json" else "public_tests.json"
      match tfs (dir ++ "/" ++ file) with
      | none => .ok []
      | some cases => .ok (cases.map (fun c => { c with hidden := isHiddenTests }))

/-- Embeds `_build_problem`. -/
def buildProblem (fs : String → Option ManifestData)
    (tfs : String → Option (List TestCaseData)) (root pid : String)
    (includeHidden : Bool) : Except String ProblemData :=
  match loadManifest fs root pid with
  | .error e => .error e
  | .ok m =>
      match loadTests tfs root pid false with
      | .error e => .error e
      | .ok publicTests =>
          match (if includeHidden then loadTests tfs root pid true else .ok []) with
          | .error e => .error e
          | .ok hiddenTests =>
              .ok ⟨m.id.getD pid, m.version.getD ("v1"), m.requiresTorch.getD false,
                m.timeLimitS.getD 10, m.memoryMb.getD 1024, publicTests, hiddenTests⟩

/-- Embeds `get_for_run` (public tests only). -/
def getForRun (fs : String → Option ManifestData)
    (tfs : String → Option (List TestCaseData)) (root pid : String) :
    Except String ProblemData :=
  buildProblem fs tfs root pid false

/-- Embeds `get_for_submit` (public + hidden tests). -/
def getForSubmit (fs : String → Option ManifestData)
    (tfs : String → Option (List TestCaseData)) (root pid : String) :
    Except String ProblemData :=
  buildProblem fs tfs root pid true

end Problems

end Judge

/-- C9 counterexample: the id `a..b` contains `..` (as a substring) but is
not rejected: `_safe_problem_path` accepts it, and `get_route_info` on any
root proceeds past the gate (here failing later with a manifest-not-found
error, not the invalid-problem-id error). -/
theorem Judge.Problems.path_traversal_counterexample :
    ([('.' : Char), '.'] <:+: ("a..b").data) ∧
    safeProblemPath ("/problems") ("a..b") = .ok ("/problems/a..b") ∧
    getRouteInfo (fun _ => none) ("/problems") ("a..b") =
      .error ("manifest.json not found for a..b") := by
  refine ⟨?_, rfl, rfl⟩
  decide

/-- C9 amended: every problem-store lookup (`get_for_run`, `get_for_submit`,
`get_route_info`) rejects path traversal: for every problem id that starts
with `/` or contains `..` as a path segment (an element of
`problem_id.split("/")`), the lookup raises the invalid-problem-id error
before resolving any path under the problem root (for every state of the
filesystem maps). -/
theorem Judge.Problems.path_traversal_rejected
    (root pid : String) (fs : String → Option ManifestData)
    (tfs : String → Option (List TestCaseData))
    (h : startsWithSlash pid = true ∨
      (splitSlash pid.data).contains ([('.' : Char), '.']) = true) :
    getRouteInfo fs root pid = .error ("Invalid problem id") ∧
    getForRun fs tfs root pid = .error ("Invalid problem id") ∧
    getForSubmit fs tfs root pid = .error ("Invalid problem id") := by
  have hgate : safeProblemPath root pid = .error ("Invalid problem id") := by
    rw [safeProblemPath, if_pos]
    rw [Bool.or_eq_true]
    rcases h with h | h
    · exact Or.inl h
    · exact Or.inr h
  refine ⟨?_, ?_, ?_⟩
  · rw [getRouteInfo, loadManifest, hgate]
  · rw [getForRun, buildProblem, loadManifest, hgate]
  · rw [getForSubmit, buildProblem, loadManifest, hgate]

/-- C9 amended witness: rejection of a leading-slash id and of a `..`
segment, on an arbitrary concrete filesystem. -/
theorem Judge.Problems.path_traversal_rejected_witness :
    getRouteInfo (fun _ => none) ("/problems") ("/etc/passwd") =
      .error ("Invalid problem id") ∧
    getForSubmit (fun _ => none) (fun _ => none) ("/problems") ("a/../b") =
      .error ("Invalid problem id") :=
  ⟨(Judge.Problems.path_traversal_rejected ("/problems") ("/etc/passwd") _ (fun _ => none)
      (Or.inl (by decide))).1,
    (Judge.Problems.path_traversal_rejected ("/problems") ("a/../b") (fun _ => none) _
      (Or.inr (by decide))).2.2⟩
